import Mathlib

/-!
Verification development for the HabiBot client library (src/habibot.js).

The JavaScript source is shallowly embedded: JS values become the inductive
`JsVal`, JS objects become association lists over `Str` (lists of characters,
mirroring JS strings processed character by character), exceptions become an
`Except JsErr` result, and in-place mutation of a message object is modelled by
returning the updated object.  All definitions are translated directly from the
source file; line numbers in doc comments refer to src/habibot.js.
-/

namespace Habibot

/-- Strings are modelled as lists of characters, matching the character-level
processing (`charCodeAt`, `split`) done by the source. -/
abbrev Str := List Char

/-- Association-list lookup, modelling `m[k]` key lookup on a JS object
(first matching key wins; keys are unique in practice). -/
def lookupA {β : Type} : List (Str × β) → Str → Option β
  | [], _ => none
  | (k', v) :: rest, k => if k' = k then some v else lookupA rest k

/-- Removal of a key, modelling the JS `delete m[k]` statement. -/
def delA {β : Type} : List (Str × β) → Str → List (Str × β)
  | [], _ => []
  | (k', v) :: rest, k => if k' = k then delA rest k else (k', v) :: delA rest k

/-- Key assignment `m[k] = v` on a JS object: the key holds exactly one value
afterwards.  (Insertion order is not observed by any of the table consumers.) -/
def setA {β : Type} (m : List (Str × β)) (k : Str) (v : β) : List (Str × β) :=
  delA m k ++ [(k, v)]

/-- In-place update of an existing field (`obj.to = ...`), keeping field order. -/
def updateA {β : Type} (m : List (Str × β)) (k : Str) (v : β) : List (Str × β) :=
  m.map (fun kv => if kv.1 = k then (k, v) else kv)

/-- Split on a single character, exactly as JS `s.split(sep)` behaves for a
one-character separator: `"a-b-c".split('-') = ["a","b","c"]`,
`"".split('-') = [""]`, `"-".split('-') = ["",""]`. -/
def splitOnChar (sep : Char) : Str → List Str
  | [] => [[]]
  | c :: rest =>
    if c = sep then [] :: splitOnChar sep rest
    else
      match splitOnChar sep rest with
      | [] => [[c]]
      | h :: t => (c :: h) :: t

/-- JS values as they occur in this program: `undefined`, `null`, booleans,
(integer) numbers, strings, arrays and plain objects. -/
inductive JsVal where
  | undefined : JsVal
  | jsNull : JsVal
  | bool : Bool → JsVal
  | num : Int → JsVal
  | str : Str → JsVal
  | arr : List JsVal → JsVal
  | obj : List (Str × JsVal) → JsVal

/-- The only exception kind the modelled code can raise: a `TypeError` from a
property access on `undefined`/`null` (or a method call on a non-string). -/
inductive JsErr where
  | typeError : JsErr
deriving DecidableEq

/-- JS truthiness. -/
def jsTruthy : JsVal → Bool
  | .undefined => false
  | .jsNull => false
  | .bool b => b
  | .num n => decide (n ≠ 0)
  | .str s => decide (s ≠ [])
  | .arr _ => true
  | .obj _ => true

/-- Strict equality `v === "lit"` against a string literal. -/
def jsStrEq (v : JsVal) (s : Str) : Bool :=
  match v with
  | .str t => decide (t = s)
  | _ => false

/-- Property read that cannot throw (used where the receiver is known to be
defined): `undefined` for a missing key or a non-object receiver. -/
def getF (v : JsVal) (k : Str) : JsVal :=
  match v with
  | .obj fs => (lookupA fs k).getD .undefined
  | _ => .undefined

/-- Key-presence test, modelling the JS `'k' in obj` operator on an object. -/
def keyMem (v : JsVal) (k : Str) : Bool :=
  match v with
  | .obj fs => (lookupA fs k).isSome
  | _ => false

/-- Numeric array index from a property key (JS `arr["0"]`). -/
def strToIdx (k : Str) : Option Nat :=
  if k ≠ [] ∧ k.all Char.isDigit then
    some (k.foldl (fun acc c => acc * 10 + (c.toNat - 48)) 0)
  else none

def sLength : Str := "length".data

/-- Property access `v[k]` with JS exception behaviour: reading a property of
`undefined` or `null` throws a `TypeError`; on other primitives it yields
`undefined`; arrays expose numeric indices and `length`. -/
def jsGetE : JsVal → Str → Except JsErr JsVal
  | .undefined, _ => .error .typeError
  | .jsNull, _ => .error .typeError
  | .obj fs, k => .ok ((lookupA fs k).getD .undefined)
  | .arr es, k =>
    if k = sLength then .ok (.num es.length)
    else
      match strToIdx k with
      | some i => .ok ((es.get? i).getD .undefined)
      | none => .ok .undefined
  | .str s, k =>
    if k = sLength then .ok (.num s.length)
    else
      match strToIdx k with
      | some i =>
        match s.get? i with
        | some c => .ok (.str [c])
        | none => .ok .undefined
      | none => .ok .undefined
  | .num _, _ => .ok .undefined
  | .bool _, _ => .ok .undefined

/-- Evaluation of `v.length` as used in comparisons: throws on
`undefined`/`null`, yields a number for arrays and strings, `none` when the
result is not a number (so every numeric comparison on it is false). -/
def jsLenE : JsVal → Except JsErr (Option Int)
  | .undefined => .error .typeError
  | .jsNull => .error .typeError
  | .arr es => .ok (some es.length)
  | .str s => .ok (some s.length)
  | .obj fs =>
    .ok (match lookupA fs sLength with
        | some (.num n) => some n
        | _ => none)
  | .num _ => .ok none
  | .bool _ => .ok none

/-- A value about to be used as the receiver of a string method (`s.split`):
anything but a string throws a `TypeError`. -/
def asStr : JsVal → Except JsErr Str
  | .str s => .ok s
  | _ => .error .typeError

def sUndefinedLit : Str := "undefined".data
def sNullLit : Str := "null".data
def sTrueLit : Str := "true".data
def sFalseLit : Str := "false".data
def sObjectObject : Str := "[object Object]".data

def intToStr (n : Int) : Str := (toString n).data

mutual
/-- JS `String(v)` coercion (used for template interpolation and property
keys). Arrays stringify as their comma-joined elements, with `undefined` and
`null` elements becoming empty, exactly as `Array.prototype.toString`. -/
def jsToStr : JsVal → Str
  | .undefined => sUndefinedLit
  | .jsNull => sNullLit
  | .bool true => sTrueLit
  | .bool false => sFalseLit
  | .num n => intToStr n
  | .str s => s
  | .arr es => jsArrToStr es
  | .obj _ => sObjectObject

/-- Comma-joined stringification of array elements (JS `join(",")`). -/
def jsArrToStr : List JsVal → Str
  | [] => []
  | [.undefined] => []
  | [.jsNull] => []
  | [v] => jsToStr v
  | .undefined :: rest => ',' :: jsArrToStr rest
  | .jsNull :: rest => ',' :: jsArrToStr rest
  | v :: rest => jsToStr v ++ ',' :: jsArrToStr rest
end

/-- Element stringification used by `Array.prototype.join("")` on the chunks
array in `substituteState`: `undefined` and `null` join as the empty string. -/
def jsJoinElem (v : JsVal) : Str :=
  match v with
  | .undefined => []
  | .jsNull => []
  | .bool b => if b then sTrueLit else sFalseLit
  | .num n => intToStr n
  | .str s => s
  | .arr es => jsArrToStr es
  | .obj _ => sObjectObject

/-- The Deframer state of `processData` (src/habibot.js:469-507).  All four
components are local variables of the function (`framed`, `firstEOL`,
`JSONFrame`) plus the list of frames handed to `processElkoPacket` so far, so
none of this state survives across calls. -/
structure DeframeSt where
  framed : Bool
  firstEOL : Bool
  buf : Str
  frames : List Str

/-- One character of the deframing loop of `processData`
(src/habibot.js:476-501): inside a frame every byte is appended and a second
line feed completes the frame; outside a frame only `&#x7b;` (char 123) starts a
frame and every other byte is dropped. -/
def deframeStep (st : DeframeSt) (c : Char) : DeframeSt :=
  if st.framed then
    let buf := st.buf ++ [c]
    if c = '\x0a' then
      if st.firstEOL then
        { framed := false, firstEOL := false, buf := [], frames := st.frames ++ [buf] }
      else
        { st with buf := buf, firstEOL := true }
    else
      { st with buf := buf }
  else
    if c = '\x7b' then
      { st with framed := true, firstEOL := false, buf := ['\x7b'] }
    else
      st

/-- The frames one `processData` call emits for one data chunk, including the
end-of-chunk fallback of src/habibot.js:502-507 which flushes a still-open
partial frame. -/
def deframeChunk (blob : Str) : List Str :=
  let st := blob.foldl deframeStep ⟨false, false, [], []⟩
  if st.framed then st.frames ++ [st.buf] else st.frames

/-- The frame sequence emitted over several successive `processData` calls.
Because the deframing state is local to each call (src/habibot.js:470-472),
the emissions of a chunk sequence are simply the concatenation of the
per-chunk emissions. -/
def deframeChunks (chunks : List Str) : List Str :=
  (chunks.map deframeChunk).flatten

/-- A well-formed wire frame: a payload starting with `&#x7b;`, free of line
feeds, followed by the two terminating line feeds. -/
def WellFormedFrame (f : Str) : Prop :=
  ∃ body, f = '\x7b' :: (body ++ ['\x0a', '\x0a']) ∧ '\x0a' ∉ body

def sTo : Str := "to".data
def sOp : Str := "op".data
def sObj : Str := "obj".data
def sObject : Str := "object".data
def sRef : Str := "ref".data
def sMods : Str := "mods".data
def sNoid : Str := "noid".data
def sYou : Str := "you".data
def sType : Str := "type".data
def sName : Str := "name".data
def sZero : Str := "0".data
def sME : Str := "ME".data
def sUSER : Str := "USER".data
def sGHOST : Str := "GHOST".data
def sGhost : Str := "Ghost".data
def sAvatar : Str := "Avatar".data
def sMake : Str := "make".data
def sHereis : Str := "HEREIS_$".data
def sDelete : Str := "delete".data
def sMsg : Str := "msg".data
def sEnteredRegion : Str := "enteredRegion".data

/-- The mirror tables owned by one HabiBot connection
(src/habibot.js:448-453): alias → ref, ref → last introduction message,
stringified noid → object, avatar name → object. -/
structure BotSt where
  names : List (Str × Str)
  history : List (Str × JsVal)
  noids : List (Str × JsVal)
  avatars : List (Str × JsVal)

/-- The event registry, modelled as event key → number of registered
reactions.  Reactions themselves are opaque; an invocation is recorded as an
event carrying the key, the reaction's registration index, and the message it
receives (together with the bot instance, which is implicit since all state
belongs to one connection). -/
abbrev Cbs := List (Str × Nat)

/-- One reaction invocation: event key, reaction index, message argument. -/
abbrev Ev := Str × Nat × JsVal

/-- Invocations produced by running every reaction registered under `key`, in
registration order (`for (var i in list)` iterates indices in order); zero
invocations when the key is absent, matching `for … in undefined`. -/
def fireEvents (cbs : Cbs) (key : Str) (o : JsVal) : List Ev :=
  (List.range ((lookupA cbs key).getD 0)).map (fun i => (key, i, o))

/-- Registration of the dash/dot aliases of a ref (src/habibot.js:422-430):
for each segment of `s.split('-')` the segment itself and each of its
`.`-subsegments map to `s`. -/
def addNames (names : List (Str × Str)) (s : Str) : List (Str × Str) :=
  (splitOnChar '-' s).foldl
    (fun ns dash =>
      (splitOnChar '.' dash).foldl (fun ns' dot => setA ns' dot s) (setA ns dash s))
    names

/-- Removal of the dash/dot aliases of a ref (src/habibot.js:435-443). -/
def clearNames (names : List (Str × Str)) (s : Str) : List (Str × Str) :=
  (splitOnChar '-' s).foldl
    (fun ns dash =>
      (splitOnChar '.' dash).foldl (fun ns' dot => delA ns' dot) (delA ns dash))
    names

/-- Alias lookup `this.names[s] || s` (src/habibot.js:583-585): the stored ref
when present (and non-empty, `||` being a truthiness choice), otherwise the
input itself. -/
def substituteName (names : List (Str × Str)) (s : Str) : Str :=
  match lookupA names s with
  | some r => if r = [] then s else r
  | none => s

/-- Field assignment `o.k = v` on a parsed message (used by the `HEREIS_$`
normalization, src/habibot.js:549-551): replaces the field in place or appends
it; no-op on non-objects (the messages it is applied to are objects). -/
def setField (v : JsVal) (k : Str) (w : JsVal) : JsVal :=
  match v with
  | .obj fs => .obj (if (lookupA fs k).isSome then updateA fs k w else fs ++ [(k, w)])
  | v' => v'

/-- Truth of `len > 0` where `len` is the result of a `.length` read. -/
def lenGt0 (l : Option Int) : Bool :=
  match l with
  | some n => decide (0 < n)
  | none => false

/-- Template segment `${split[i]}`: the segment itself, or `"undefined"` when
the index is out of range, as JS template interpolation stringifies it. -/
def seg (xs : List Str) (i : Nat) : Str :=
  (xs.get? i).getD sUndefinedLit

/-- The Mirror's frame-processing step `scanForRefs`
(src/habibot.js:537-577), applied to the already-parsed message `o`
(`util.parseElko` is a repository file missing from src/ and enters as the
`parse` parameter of `processData`).  Returns the updated mirror state, the
`enteredRegion` invocations it performed, and the message it returns to
`processData` (`none` models the bare `return;` for a message without an
operation tag).  Thrown `TypeError`s (property chains through
`undefined`/`null`, `split` on non-strings) surface as `.error`; no claim
examined here depends on the partially-mutated state a real JS throw would
leave behind. -/
def scanForRefs (cbs : Cbs) (st : BotSt) (o : JsVal) :
    Except JsErr (BotSt × List Ev × Option JsVal) := do
  let st ←
    if jsTruthy (getF o sTo) then do
      let toS ← asStr (getF o sTo)
      pure { st with names := addNames st.names toS }
    else pure st
  if jsTruthy (getF o sOp) = false then
    pure (st, [], none)
  else
    let o := if jsStrEq (getF o sOp) sHereis then setField o sObj (getF o sObject) else o
    if jsStrEq (getF o sOp) sMake || jsStrEq (getF o sOp) sHereis then do
      let objV := getF o sObj
      let refV ← jsGetE objV sRef
      let ref ← asStr refV
      let st := { st with names := addNames st.names ref,
                          history := setA st.history ref o }
      let st ←
        if keyMem objV sMods then do
          let len ← jsLenE (getF objV sMods)
          if lenGt0 len then do
            let m0 ← jsGetE (getF objV sMods) sZero
            let noidV ← jsGetE m0 sNoid
            pure { st with noids := setA st.noids (jsToStr noidV) objV }
          else pure st
        else pure st
      let r ←
        if jsTruthy (getF o sYou) then do
          let split := splitOnChar '-' ref
          let st := { st with
            names := setA (setA st.names sME ref) sUSER (seg split 0 ++ '-' :: seg split 1) }
          match lookupA cbs sEnteredRegion with
          | none => Except.error JsErr.typeError
          | some n => pure (st, (List.range n).map (fun i => (sEnteredRegion, i, o)))
        else pure (st, [])
      let st := r.1
      let m0 ← jsGetE (getF objV sMods) sZero
      let ty ← jsGetE m0 sType
      let st := if jsStrEq ty sGhost then { st with names := setA st.names sGHOST ref } else st
      let st :=
        if jsStrEq ty sAvatar then
          { st with avatars := setA st.avatars (jsToStr (getF objV sName)) objV }
        else st
      pure (st, r.2, some o)
    else
      pure (st, [], some o)

/-- The `delete` bookkeeping at the end of `processData`
(src/habibot.js:520-528): when `o.op === 'delete'`, look the record up under
`o.to`, release its aliases, drop an Avatar record from the avatar table, and
remove the record from history; for any other operation the state is left
alone. -/
def deleteBookkeeping (st : BotSt) (o : JsVal) : Except JsErr BotSt := do
  if jsStrEq (getF o sOp) sDelete then do
    let toV := getF o sTo
    let objRec := (lookupA st.history (jsToStr toV)).getD .undefined
    let toS ← asStr toV
    let st := { st with names := clearNames st.names toS }
    let isAv ←
      match objRec with
      | .undefined => Except.error JsErr.typeError
      | .jsNull => Except.error JsErr.typeError
      | .obj fs =>
        if (lookupA fs sObj).isSome then do
          let mods ← jsGetE ((lookupA fs sObj).getD .undefined) sMods
          let m0 ← jsGetE mods sZero
          let ty ← jsGetE m0 sType
          pure (jsStrEq ty sAvatar)
        else pure false
      | .arr _ => pure false
      | _ => Except.error JsErr.typeError
    let st :=
      if isAv then
        { st with avatars := delA st.avatars (jsToStr (getF (getF objRec sObj) sName)) }
      else st
    pure { st with history := delA st.history (jsToStr toV) }
  else
    pure st

/-- The tail of `processData` (src/habibot.js:509-529) applied to the last
parsed message `o` of a chunk: run the reactions registered under `o.op` (when
that key exists in the registry), then every `msg` reaction — all receiving
`o` — then apply the `delete` bookkeeping when `o.op === 'delete'`.  The
invocation trace is computed before the bookkeeping, exactly as the source
runs the callbacks before the `delete` block. -/
def dispatchFinish (cbs : Cbs) (st : BotSt) (o : JsVal) : Except JsErr (BotSt × List Ev) := do
  let key := jsToStr (getF o sOp)
  let evs := (if (lookupA cbs key).isSome then fireEvents cbs key o else []) ++
    fireEvents cbs sMsg o
  let st' ← deleteBookkeeping st o
  pure (st', evs)

/-- The per-frame loop of `processData` (src/habibot.js:476-507): every
emitted frame is parsed and fed to `scanForRefs` in emission order — each
frame updates the mirror — while the accumulator's last component models the
variable `o`, overwritten at every `processElkoPacket` call, so after the
loop it holds only the LAST frame's scan result. -/
def scanAll (parse : Str → JsVal) (cbs : Cbs) :
    BotSt × List Ev × Option JsVal → List Str → Except JsErr (BotSt × List Ev × Option JsVal)
  | acc, [] => pure acc
  | acc, f :: fs => do
    let s ← scanForRefs cbs acc.1 (parse f)
    scanAll parse cbs (s.1, acc.2.1 ++ s.2.1, s.2.2) fs

/-- The full `processData` (src/habibot.js:469-530) on one data chunk: deframe
the chunk, feed every completed (or flushed) frame through
`scanForRefs ∘ parse` in emission order (`scanAll`), and finally dispatch for
the variable `o` — the LAST frame's scan result.  The source interleaves
deframing with the scans inside one character loop; phrasing it as
deframe-then-scan preserves the frame sequence, the scan order, the resulting
state and the invocation trace (an exception stops the remaining scans in
both phrasings). -/
def processData (parse : Str → JsVal) (cbs : Cbs) (st : BotSt) (blob : Str) :
    Except JsErr (BotSt × List Ev) := do
  let r ← scanAll parse cbs (st, [], none) (deframeChunk blob)
  match r.2.2 with
  | none => pure (r.1, r.2.1)
  | some o => do
    let d ← dispatchFinish cbs r.1 o
    pure (d.1, r.2.1 ++ d.2)

/-- Test for the JS value `undefined`. -/
def isUndefined : JsVal → Bool
  | .undefined => true
  | _ => false

/-- Truth of `len === 1` where `len` is the result of a `.length` read. -/
def lenEq1 (l : Option Int) : Bool :=
  match l with
  | some n => decide (n = 1)
  | none => false

/-- The inner `for (j …)` loop of `substituteState` for the segments after the
first (src/habibot.js:623-627): prefer the first mod's field, then the
object's field, then raw property traversal on the previous value (which
throws a `TypeError` if that value is `undefined`/`null`).  The `mod` and
`obj` variables stay fixed for the whole path, as in the source. -/
def resolveRest (objO modO : Option JsVal) : JsVal → List Str → Except JsErr JsVal
  | value, [] => pure value
  | value, k :: rest => do
    let mv ←
      match modO with
      | some m => if isUndefined m then pure JsVal.undefined else jsGetE m k
      | none => pure JsVal.undefined
    if isUndefined mv = false then resolveRest objO modO mv rest
    else do
      let ov ←
        match objO with
        | some ob => if isUndefined ob then pure JsVal.undefined else jsGetE ob k
        | none => pure JsVal.undefined
      if isUndefined ov = false then resolveRest objO modO ov rest
      else do
        let vv ← jsGetE value k
        resolveRest objO modO vv rest

/-- Resolution of one `$`-chunk (src/habibot.js:602-629).  The first dotted
segment is resolved through the alias table into `history`; a miss degrades to
`names[seg] || chunk`.  On a hit, `obj` is bound to the entry's `.obj` when
defined, and `mod` to `obj.mods[0]` when `undefined !== obj.mods &
obj.mods.length === 1` — a bitwise `&`, so `obj.mods.length` is evaluated
(and throws) even when `obj.mods` is undefined. -/
def resolveChunk (names : List (Str × Str)) (history : List (Str × JsVal)) (chunk : Str) :
    Except JsErr JsVal :=
  match splitOnChar '.' chunk with
  | [] => pure (.str chunk)
  | k0 :: rest =>
    match lookupA history (substituteName names k0) with
    | none =>
      pure (match lookupA names k0 with
            | some r => if r = [] then .str chunk else .str r
            | none => .str chunk)
    | some JsVal.undefined =>
      pure (match lookupA names k0 with
            | some r => if r = [] then .str chunk else .str r
            | none => .str chunk)
    | some value => do
      let objV ← jsGetE value sObj
      if isUndefined objV then
        resolveRest none none value rest
      else do
        let mods ← jsGetE objV sMods
        let len ← jsLenE mods
        if isUndefined mods = false && lenEq1 len then do
          let m0 ← jsGetE mods sZero
          resolveRest (some objV) (some m0) value rest
        else
          resolveRest (some objV) none value rest

/-- An outbound command object: ordered fields of a JS object literal. -/
abbrev Msg := List (Str × JsVal)

/-- The state-substitution engine `substituteState` (src/habibot.js:595-641),
modelling the in-place rewrite of `m` by returning the updated object.  Every
string field containing `$` is split on `$`; each chunk after the first is
resolved; when the value was exactly one `$`-path (two chunks, the first
empty) the field becomes the resolved value itself, preserving its type,
otherwise the chunks are joined as text (with `undefined`/`null` joining as
empty, per `Array.prototype.join`). -/
def substituteState (names : List (Str × Str)) (history : List (Str × JsVal)) (m : Msg) :
    Except JsErr Msg :=
  m.mapM (fun kv => do
    match kv.2 with
    | .str s =>
      if '$' ∈ s then
        match splitOnChar '$' s with
        | [] => pure kv
        | c0 :: cs => do
          let vals ← cs.mapM (resolveChunk names history)
          if cs.length = 1 ∧ c0 = [] then
            pure (kv.1, vals.headD JsVal.undefined)
          else
            pure (kv.1, JsVal.str (vals.foldl (fun acc v => acc ++ jsJoinElem v) c0))
      else pure kv
    | _ => pure kv)

/-- The `to`-field rewrite of `sendWithDelay` (src/habibot.js:368-370):
`obj.to = this.substituteName(obj.to)` when `obj.to` is truthy.  A non-string
`to` is looked up under its stringified key, `|| obj.to` restoring the
original on a miss. -/
def substituteNameJs (names : List (Str × Str)) (v : JsVal) : JsVal :=
  match v with
  | .str s => .str (substituteName names s)
  | v' =>
    match lookupA names (jsToStr v') with
    | some r => if r = [] then v' else .str r
    | none => v'

/-- The mutation a queue unit applies to the caller's command object before
serializing it (src/habibot.js:368-371): resolve `to`, then run
`substituteState`. -/
def applySubstitution (names : List (Str × Str)) (history : List (Str × JsVal)) (m : Msg) :
    Except JsErr Msg :=
  let m1 :=
    match lookupA m sTo with
    | some v => if jsTruthy v then updateA m sTo (substituteNameJs names v) else m
    | none => m
  substituteState names history m1

/-- JSON string escaping (quote, backslash and line feed are the characters
that can occur in this development). -/
def jsonEsc (c : Char) : Str :=
  if c = '\x22' then ['\\', '\x22']
  else if c = '\\' then ['\\', '\\']
  else if c = '\x0a' then ['\\', 'n']
  else [c]

def jsonQuote (s : Str) : Str :=
  '\x22' :: s.foldr (fun c acc => jsonEsc c ++ acc) ['\x22']

mutual
/-- `JSON.stringify` for the value shapes of this program: `undefined` is
omitted (`none`), object fields with `undefined` values are skipped, and
`undefined` array elements serialize as `null`. -/
def jsonStringify : JsVal → Option Str
  | .undefined => none
  | .jsNull => some sNullLit
  | .bool true => some sTrueLit
  | .bool false => some sFalseLit
  | .num n => some (intToStr n)
  | .str s => some (jsonQuote s)
  | .arr es => some ('[' :: (List.intercalate [','] (jsonArrElems es) ++ [']']))
  | .obj fs => some ('\x7b' :: (List.intercalate [','] (jsonObjFields fs) ++ ['\x7d']))

def jsonArrElems : List JsVal → List Str
  | [] => []
  | v :: rest => ((jsonStringify v).getD sNullLit) :: jsonArrElems rest

def jsonObjFields : List (Str × JsVal) → List Str
  | [] => []
  | (k, v) :: rest =>
    match jsonStringify v with
    | none => jsonObjFields rest
    | some sv => (jsonQuote k ++ ':' :: sv) :: jsonObjFields rest
end

/-- Serialization of a command object (`JSON.stringify(obj)`,
src/habibot.js:372). -/
def jsonStringifyObj (m : Msg) : Str :=
  '\x7b' :: (List.intercalate [','] (jsonObjFields m) ++ ['\x7d'])

/-- Failure of a queue unit: the `reject` for a dropped connection
(src/habibot.js:364-367), or an exception thrown by substitution. -/
inductive SendErr where
  | notConnected : SendErr
  | thrown : JsErr → SendErr
deriving DecidableEq

/-- One unit of work enqueued by `sendWithDelay` (src/habibot.js:360-381).
`connAtStart` is `this.connected` sampled when the unit becomes active — the
only connectivity read the source performs; `connAtFire` is the connection
state when the `setTimeout` callback fires after `delayMillis`, which the
source never consults: once the unit has started connected, the
`server.write` proceeds unconditionally.  On success the returned `Msg` is the
caller's command object as mutated in place, and the `Str` is the byte string
written to the socket (`msg + '\n\n'`). -/
def sendWithDelayUnit (names : List (Str × Str)) (history : List (Str × JsVal))
    (connAtStart connAtFire : Bool) (m : Msg) : Except SendErr (Msg × Str) :=
  if connAtStart then
    match applySubstitution names history m with
    | .error e => .error (.thrown e)
    | .ok m' => .ok (m', jsonStringifyObj m' ++ ['\x0a', '\x0a'])
  else .error SendErr.notConnected

/-- The action queue (`new Queue(1, Infinity)`, src/habibot.js:50) draining a
list of `(command, delayMillis)` units on a session whose connection flag
stays `conn`: concurrency is one, so units run strictly in enqueue order, each
starting only after the previous one completed.  `t` is the clock when the
first unit starts; each unit's write happens `delayMillis` plus a
non-negative scheduler latency (drawn from `lats`) after it starts, matching
`setTimeout` firing no earlier than its delay.  A failed unit (rejection)
produces no write and the next unit starts immediately. -/
def runQueue (names : List (Str × Str)) (history : List (Str × JsVal)) (conn : Bool) :
    Nat → List (Msg × Nat) → List Nat → List (Str × Nat)
  | _, [], _ => []
  | t, (m, d) :: rest, lats =>
    match sendWithDelayUnit names history conn conn m with
    | .ok md =>
      (md.2, t + d + lats.headD 0) :: runQueue names history conn (t + d + lats.headD 0) rest lats.tail
    | .error _ => runQueue names history conn t rest lats.tail

/-- Accessor `getNoid(noid)` (src/habibot.js:264-272): the object stored under
the stringified numeric id, or `null` (modelled `none`) on a miss — a miss
never throws. -/
def getNoid (noids : List (Str × JsVal)) (noid : Int) : Option JsVal :=
  lookupA noids (intToStr noid)

/-- Accessor `getMod(noid)` (src/habibot.js:255-257):
`return this.getNoid(noid).mods[0]` — on a miss `getNoid` yields `null` and
the `.mods` access throws a `TypeError`. -/
def getMod (noids : List (Str × JsVal)) (noid : Int) : Except JsErr JsVal := do
  match getNoid noids noid with
  | none => Except.error JsErr.typeError
  | some v => do
    let mods ← jsGetE v sMods
    jsGetE mods sZero

/-- Connection configuration relevant to `connect()` (src/habibot.js:76-96). -/
structure ConnCfg where
  host : Option Str
  port : Option Int
  connected : Bool

inductive ConnectOutcome where
  | attempted : ConnectOutcome
  | noop : ConnectOutcome
deriving DecidableEq

/-- The `connect()` guard (src/habibot.js:76-96).  When host or port is unset
the guard body evaluates
`log.error('No host or port specified: %s:%d', this.host. this.port)` — note
the `.` where a `,` was intended — i.e. the property chain
`((this.host).this).port`: with `host` undefined the first access throws a
`TypeError`, and with `host` a string, `(this.host).this` is `undefined` and
the `.port` access throws.  Either way `connect()` throws instead of logging
and returning.  Otherwise it attempts the TCP connection unless already
connected. -/
def connect (cfg : ConnCfg) : Except JsErr ConnectOutcome :=
  if cfg.host.isNone || cfg.port.isNone then
    .error JsErr.typeError
  else if cfg.connected then .ok .noop
  else .ok .attempted

def sRejectMsg : Str := "Could not ensure corporation after 5 tries.".data

inductive CorpResult where
  | success : CorpResult
  | rejected : Str → CorpResult

/-- The ghost-to-avatar retry loop `tryEnsureCorporated(curTry)`
(src/habibot.js:643-664) under an environment where the avatar stays ghosted
(`ghosted`) and the `GHOST` alias is present iff `hasGhostRef`, never
changing.  Each recursive step stands for one 2000 ms poll.  The source's
recursion is `scope.ensureCorporated(curTry + 1)` — but `ensureCorporated()`
(src/habibot.js:154-156) takes no parameter and calls
`this.tryEnsureCorporated(0)`, so the re-entry argument is discarded and the
counter restarts at 0; the model recurses with `0` accordingly.  `fuel`
bounds the number of polls observed; `none` means the loop was still running
after `fuel` polls. -/
def tryEnsureCorporated (ghosted hasGhostRef : Bool) : Nat → Nat → Option CorpResult
  | 0, _ => none
  | fuel + 1, curTry =>
    if ghosted then
      if hasGhostRef then some .success
      else if curTry < 5 then tryEnsureCorporated ghosted hasGhostRef fuel 0
      else some (.rejected sRejectMsg)
    else some .success

/-- The same loop as the surrounding comment and the rejection message intend
it (`retries every 2 seconds 5 times`, src/habibot.js:646-647): the re-entry
keeps the incremented counter. -/
def tryEnsureCorporatedIntended (ghosted hasGhostRef : Bool) : Nat → Nat → Option CorpResult
  | 0, _ => none
  | fuel + 1, curTry =>
    if ghosted then
      if hasGhostRef then some .success
      else if curTry < 5 then tryEnsureCorporatedIntended ghosted hasGhostRef fuel (curTry + 1)
      else some (.rejected sRejectMsg)
    else some .success

/-! Concrete data used to settle the claims. -/

def sA : Str := "A".data
def sB : Str := "B".data
def sC : Str := "C".data
def sHI : Str := "HI".data
def sSPEAK : Str := "SPEAK".data
def sText : Str := "text".data
def sConn : Str := "connected".data
def sDisconn : Str := "disconnected".data
def sRandy : Str := "Randy".data
def refRandy : Str := "user-randy-100".data
def pathNoid : Str := "$ME.mods.noid".data
def pathHelloBang : Str := "hello $ME.name!".data
def pathHello : Str := "hello $ME.name".data
def pathHiName : Str := "hi $ME.name".data
def outHello : Str := "hello ".data
def outHelloRandy : Str := "hello Randy".data
def outHelloRandyBang : Str := "hello Randy!".data
def outHiRandy : Str := "hi Randy".data
def sHostEx : Str := "example.org".data
def sa : Str := "a".data
def sb : Str := "b".data
def sc : Str := "c".data
def sab : Str := "a-b".data
def sbc : Str := "b-c".data
def sabc : Str := "a-b-c".data

/-- An introduction message whose object has ref `user-randy-100`, name
`Randy`, and a single mod carrying the numeric `noid` 42. -/
def msgRandy : JsVal :=
  .obj [(sObj, .obj [(sRef, .str refRandy), (sName, .str sRandy),
    (sMods, .arr [.obj [(sNoid, .num 42), (sType, .str sAvatar)]])])]

/-- An alias table where `ME` resolves to `user-randy-100`. -/
def namesRandy : List (Str × Str) := [(sME, refRandy)]

/-- A history holding `msgRandy` under its ref. -/
def historyRandy : List (Str × JsVal) := [(refRandy, msgRandy)]

def cxFrameA : Str := "\x7b1\x0a\x0a".data
def cxFrameB : Str := "\x7b2\x0a\x0a".data
def cxBody1 : Str := "1".data
def cxBody2 : Str := "2".data
def cxMsgA : JsVal := .obj [(sOp, .str sA)]
def cxMsgB : JsVal := .obj [(sOp, .str sB)]

/-- A parse function (standing for `util.parseElko`, which lives outside
src/) mapping the two test frames to messages with operations `A` and `B`. -/
def cxParse (s : Str) : JsVal :=
  if s = cxFrameA then cxMsgA else if s = cxFrameB then cxMsgB else .obj []

/-- A registry with the constructor's built-in keys plus one reaction under
`A`, one under `B` and one under `msg`. -/
def cxCbs : Cbs :=
  [(sConn, 0), (sDelete, 0), (sDisconn, 0), (sEnteredRegion, 0), (sMsg, 1), (sA, 1), (sB, 1)]

/-- The empty mirror state (`clearState`, src/habibot.js:448-453). -/
def botSt0 : BotSt := ⟨[], [], [], []⟩

/-- The reactions a `processData` run invoked, as (event key, reaction index)
pairs in invocation order. -/
def firedReactions (r : Except JsErr (BotSt × List Ev)) : List (Str × Nat) :=
  match r with
  | .ok p => p.2.map (fun e => (e.1, e.2.1))
  | .error _ => []

def cmdA : Msg := [(sOp, .str sA)]
def cmdB : Msg := [(sOp, .str sB)]
def cmdC : Msg := [(sOp, .str sC)]
def cmdHi : Msg := [(sOp, .str sHI)]

/-- A command using the `ME` alias and a `$`-path. -/
def cmdSpeak : Msg := [(sOp, .str sSPEAK), (sTo, .str sME), (sText, .str pathHiName)]

/-- The same command after the queue unit mutated it: `to` resolved to the
ref, the `$`-path replaced by live state. -/
def cmdSpeakResolved : Msg := [(sOp, .str sSPEAK), (sTo, .str refRandy), (sText, .str outHiRandy)]

def s42 : Str := "42".data
def serA : Str := "\x7b\x22op\x22:\x22A\x22\x7d\x0a\x0a".data
def serB : Str := "\x7b\x22op\x22:\x22B\x22\x7d\x0a\x0a".data
def serC : Str := "\x7b\x22op\x22:\x22C\x22\x7d\x0a\x0a".data
def serHi : Str := "\x7b\x22op\x22:\x22HI\x22\x7d\x0a\x0a".data
def serSpeak : Str :=
  "\x7b\x22op\x22:\x22SPEAK\x22,\x22to\x22:\x22user-randy-100\x22,\x22text\x22:\x22hi Randy\x22\x7d\x0a\x0a".data

/-- The object payload of a `make` message: ref `user-randy-100`, name
`Randy`, one mod with `noid` 42 of type `Avatar`. -/
def objRandy : JsVal :=
  .obj [(sRef, .str refRandy), (sName, .str sRandy),
    (sMods, .arr [.obj [(sNoid, .num 42), (sType, .str sAvatar)]])]

/-- A `make` message introducing `objRandy`. -/
def msgMake : JsVal := .obj [(sOp, .str sMake), (sObj, objRandy)]

def bodyM : Str := "M".data

/-- A well-formed frame parsed (by `mkParse`) to the `make` message. -/
def frameMake : Str := "\x7bM\x0a\x0a".data

/-- A parse function mapping `frameMake` to the `make` message and `cxFrameB`
to the op-`B` message. -/
def mkParse (s : Str) : JsVal :=
  if s = frameMake then msgMake else if s = cxFrameB then cxMsgB else .obj []

def sUserLow : Str := "user".data
def sRandyLow : Str := "randy".data
def s100 : Str := "100".data

/-- The mirror state after `scanForRefs` processed the `make` message from an
empty state: dash-segment aliases, the history record, the noid index and the
avatar-name index are all populated. -/
def stMake : BotSt :=
  ⟨[(sUserLow, refRandy), (sRandyLow, refRandy), (s100, refRandy)],
    [(refRandy, msgMake)], [(s42, objRandy)], [(sRandy, objRandy)]⟩

end Habibot

namespace Habibot

/-! Association-table lemmas. -/

theorem lookupA_append {β : Type} (m1 m2 : List (Str × β)) (k : Str) :
    lookupA (m1 ++ m2) k =
      (match lookupA m1 k with
       | some v => some v
       | none => lookupA m2 k) := by
  induction m1 with
  | nil => simp [lookupA]
  | cons kv rest ih =>
    obtain ⟨a, b⟩ := kv
    by_cases h : a = k <;> simp [lookupA, h, ih]

theorem lookupA_delA {β : Type} (m : List (Str × β)) (k k' : Str) :
    lookupA (delA m k) k' = if k' = k then none else lookupA m k' := by
  induction m with
  | nil => simp [delA, lookupA]
  | cons kv rest ih =>
    obtain ⟨a, b⟩ := kv
    by_cases hak : a = k
    · subst hak
      by_cases hk : k' = a
      · subst hk; simp [delA, lookupA, ih]
      · simp [delA, lookupA, hk, ih, Ne.symm hk]
    · by_cases hk' : a = k'
      · subst hk'; simp [delA, lookupA, hak, ih, Ne.symm hak]
      · simp [delA, lookupA, hak, hk', ih]

theorem lookupA_setA {β : Type} (m : List (Str × β)) (k : Str) (v : β) (k' : Str) :
    lookupA (setA m k v) k' = if k' = k then some v else lookupA m k' := by
  rw [setA, lookupA_append, lookupA_delA]
  by_cases h : k' = k
  · subst h; simp [lookupA]
  · simp only [h, if_false]
    cases lookupA m k' <;> simp [lookupA, Ne.symm h]

theorem mem_delA {β : Type} (m : List (Str × β)) (k : Str) (kv : Str × β) :
    kv ∈ delA m k ↔ kv ∈ m ∧ kv.1 ≠ k := by
  induction m with
  | nil => simp [delA]
  | cons hd rest ih =>
    obtain ⟨a, b⟩ := hd
    by_cases hak : a = k
    · subst hak
      have hd : delA ((a, b) :: rest) a = delA rest a := by simp [delA]
      rw [hd, ih]
      simp only [List.mem_cons]
      constructor
      · rintro ⟨h1, h2⟩; exact ⟨Or.inr h1, h2⟩
      · rintro ⟨h1 | h1, h2⟩
        · subst h1; simp at h2
        · exact ⟨h1, h2⟩
    · have hd : delA ((a, b) :: rest) k = (a, b) :: delA rest k := by simp [delA, hak]
      rw [hd]
      simp only [List.mem_cons, ih]
      constructor
      · rintro (rfl | ⟨h1, h2⟩)
        · exact ⟨Or.inl rfl, hak⟩
        · exact ⟨Or.inr h1, h2⟩
      · rintro ⟨rfl | h1, h2⟩
        · exact Or.inl rfl
        · exact Or.inr ⟨h1, h2⟩

theorem mem_setA {β : Type} (m : List (Str × β)) (k : Str) (v : β) (kv : Str × β)
    (h : kv ∈ setA m k v) : kv = (k, v) ∨ kv ∈ m := by
  rcases List.mem_append.mp h with h1 | h1
  · exact Or.inr ((mem_delA _ _ _).mp h1).1
  · simp only [List.mem_singleton] at h1
    exact Or.inl h1

/-! Split lemmas. -/

theorem splitOnChar_of_not_mem (sep : Char) (s : Str) (h : sep ∉ s) :
    splitOnChar sep s = [s] := by
  induction s with
  | nil => simp [splitOnChar]
  | cons c rest ih =>
    have hc : ¬ c = sep := by
      intro e; subst e; exact h (List.mem_cons_self _ _)
    have ih' := ih (fun hm => h (List.mem_cons_of_mem _ hm))
    simp [splitOnChar, hc, ih']

theorem splitOnChar_append (sep : Char) (a rest : Str) (h : sep ∉ a) :
    splitOnChar sep (a ++ sep :: rest) = a :: splitOnChar sep rest := by
  induction a with
  | nil => simp [splitOnChar]
  | cons c cs ih =>
    have hc : ¬ c = sep := by
      intro e; subst e; exact h (List.mem_cons_self _ _)
    have ih' := ih (fun hm => h (List.mem_cons_of_mem _ hm))
    simp [splitOnChar, hc, ih']

/-! Deframer lemmas. -/

theorem deframe_body (body : Str) (h : '\x0a' ∉ body) (buf : Str) (frames : List Str) :
    List.foldl deframeStep ⟨true, false, buf, frames⟩ body
      = ⟨true, false, buf ++ body, frames⟩ := by
  induction body generalizing buf with
  | nil => simp
  | cons c rest ih =>
    have hc : ¬ c = '\x0a' := by
      intro e; subst e; exact h (List.mem_cons_self _ _)
    have step : deframeStep ⟨true, false, buf, frames⟩ c = ⟨true, false, buf ++ [c], frames⟩ := by
      simp [deframeStep, hc]
    rw [List.foldl_cons, step, ih (fun hm => h (List.mem_cons_of_mem _ hm))]
    simp

theorem deframe_frame (body rest : Str) (h : '\x0a' ∉ body) (frames : List Str) :
    List.foldl deframeStep ⟨false, false, [], frames⟩
        (('\x7b' :: (body ++ ['\x0a', '\x0a'])) ++ rest)
      = List.foldl deframeStep
          ⟨false, false, [], frames ++ ['\x7b' :: (body ++ ['\x0a', '\x0a'])]⟩ rest := by
  have step0 : deframeStep ⟨false, false, [], frames⟩ '\x7b'
      = ⟨true, false, ['\x7b'], frames⟩ := by
    simp [deframeStep]
  have stepEol1 : deframeStep ⟨true, false, '\x7b' :: body, frames⟩ '\x0a'
      = ⟨true, true, ('\x7b' :: body) ++ ['\x0a'], frames⟩ := by
    simp [deframeStep]
  have stepEol2 : deframeStep ⟨true, true, ('\x7b' :: body) ++ ['\x0a'], frames⟩ '\x0a'
      = ⟨false, false, [], frames ++ ['\x7b' :: (body ++ ['\x0a', '\x0a'])]⟩ := by
    simp [deframeStep]
  calc List.foldl deframeStep ⟨false, false, [], frames⟩
        (('\x7b' :: (body ++ ['\x0a', '\x0a'])) ++ rest)
      = List.foldl deframeStep ⟨true, false, ['\x7b'], frames⟩
          ((body ++ ['\x0a', '\x0a']) ++ rest) := by
        rw [List.cons_append, List.foldl_cons, step0]
    _ = List.foldl deframeStep ⟨true, false, ['\x7b'], frames⟩
          (body ++ ('\x0a' :: '\x0a' :: rest)) := by
        rw [List.append_assoc]; rfl
    _ = List.foldl deframeStep ⟨true, false, '\x7b' :: body, frames⟩
          ('\x0a' :: '\x0a' :: rest) := by
        rw [List.foldl_append, deframe_body body h _ frames]; rfl
    _ = List.foldl deframeStep
          ⟨false, false, [], frames ++ ['\x7b' :: (body ++ ['\x0a', '\x0a'])]⟩ rest := by
        rw [List.foldl_cons, stepEol1, List.foldl_cons, stepEol2]

theorem deframe_join (frames : List Str) (h : ∀ f ∈ frames, WellFormedFrame f)
    (acc : List Str) :
    List.foldl deframeStep ⟨false, false, [], acc⟩ frames.flatten
      = ⟨false, false, [], acc ++ frames⟩ := by
  induction frames generalizing acc with
  | nil => simp
  | cons f fs ih =>
    obtain ⟨body, hf, hb⟩ := h f (List.mem_cons_self _ _)
    subst hf
    rw [List.flatten_cons, deframe_frame body fs.flatten hb acc,
      ih (fun g hg => h g (List.mem_cons_of_mem _ hg))]
    simp

/-! Claim theorems. -/

/-- Deframing a single chunk that is a correct concatenation of well-formed
frames recovers exactly those frames. -/
theorem deframeChunk_flatten (frames : List Str)
    (h : ∀ f ∈ frames, WellFormedFrame f) :
    deframeChunk frames.flatten = frames := by
  have hj := deframe_join frames h []
  simp [deframeChunk, hj]

/-- C1, corrected (single-chunk part): when a correct concatenation of
`&#x7b;...&#x7d;\n\n` frames is delivered to the Deframer in ONE chunk,
the emitted payload sequence is exactly the frame sequence.  (Chunked
delivery is not equivalent — see the counterexample — because the framing
state of `processData` is local to each call.) -/
theorem habibot_C1_single_chunk (frames : List Str)
    (h : ∀ f ∈ frames, WellFormedFrame f) :
    deframeChunk frames.flatten = frames :=
  deframeChunk_flatten frames h

/-- Witness for habibot_C1_single_chunk at the two concrete frames. -/
theorem habibot_C1_witness :
    deframeChunk (List.flatten [cxFrameA, cxFrameB]) = [cxFrameA, cxFrameB] :=
  habibot_C1_single_chunk [cxFrameA, cxFrameB] (by
    intro f hf
    simp only [List.mem_cons, List.not_mem_nil, or_false] at hf
    rcases hf with rfl | rfl
    · exact ⟨cxBody1, rfl, by decide⟩
    · exact ⟨cxBody2, rfl, by decide⟩)

/-- C1 counterexample: the stream consisting of the single well-formed frame
`&#x7b;&#x7d;\n\n` emits that frame when delivered as one chunk, but delivered
one byte per chunk it emits only the flushed partial buffer `&#x7b;` — the
deframing variables of `processData` are function-local
(src/habibot.js:470-472), so nothing spans calls and the end-of-chunk
fallback (src/habibot.js:502-507) flushes the open frame. -/
theorem habibot_C1_counterexample :
    WellFormedFrame ['\x7b', '\x7d', '\x0a', '\x0a'] ∧
    deframeChunks [['\x7b', '\x7d', '\x0a', '\x0a']] = [['\x7b', '\x7d', '\x0a', '\x0a']] ∧
    deframeChunks [['\x7b'], ['\x7d'], ['\x0a'], ['\x0a']] = [['\x7b']] ∧
    ([['\x7b', '\x7d', '\x0a', '\x0a']] : List Str) ≠ [['\x7b']] :=
  ⟨⟨['\x7d'], rfl, by decide⟩, rfl, rfl, by decide⟩

/-- C2, corrected: for EVERY chunk that is a correct concatenation of frames,
every parse function, every registry and every mirror state, `processData`
scans every frame in emission order — each frame gets its mirror update via
`scanForRefs` (the `scanAll` loop) — while op/msg reaction dispatch runs
once, only for the LAST frame's parsed message (the accumulator component
modelling the variable `o` of src/habibot.js:484, 503, dispatched at
509-518).  And that single dispatch is exactly: the reactions under the last
message's operation key (when registered), then the `msg` reactions, every
invocation carrying that last message. -/
theorem habibot_C2_amended (parse : Str → JsVal) (cbs : Cbs) (st : BotSt)
    (frames : List Str) (h : ∀ f ∈ frames, WellFormedFrame f) :
    (processData parse cbs st frames.flatten = do
        let r ← scanAll parse cbs (st, [], none) frames
        match r.2.2 with
        | none => pure (r.1, r.2.1)
        | some o => do
          let d ← dispatchFinish cbs r.1 o
          pure (d.1, r.2.1 ++ d.2)) ∧
    (∀ (st' : BotSt) (o : JsVal),
        dispatchFinish cbs st' o = (deleteBookkeeping st' o).map (fun st'' => (st'',
          (if (lookupA cbs (jsToStr (getF o sOp))).isSome then
            fireEvents cbs (jsToStr (getF o sOp)) o else []) ++ fireEvents cbs sMsg o))) := by
  constructor
  · unfold processData
    rw [deframeChunk_flatten frames h]
  · intro st' o
    unfold dispatchFinish
    cases deleteBookkeeping st' o <;> rfl

/-- Witness for habibot_C2_amended at a two-frame chunk whose first frame is
a `make` introduction: the first frame's mirror update (aliases, history,
noid index, avatar index) does happen, and the only reactions invoked are
those for the second frame's message. -/
theorem habibot_C2_witness :
    (processData mkParse cxCbs botSt0 (List.flatten [frameMake, cxFrameB]) = do
        let r ← scanAll mkParse cxCbs (botSt0, [], none) [frameMake, cxFrameB]
        match r.2.2 with
        | none => pure (r.1, r.2.1)
        | some o => do
          let d ← dispatchFinish cxCbs r.1 o
          pure (d.1, r.2.1 ++ d.2)) ∧
    scanAll mkParse cxCbs (botSt0, [], none) [frameMake, cxFrameB]
      = .ok (stMake, [], some cxMsgB) ∧
    processData mkParse cxCbs botSt0 (frameMake ++ cxFrameB)
      = .ok (stMake, [(sB, 0, cxMsgB), (sMsg, 0, cxMsgB)]) :=
  ⟨(habibot_C2_amended mkParse cxCbs botSt0 [frameMake, cxFrameB] (by
      intro f hf
      simp only [List.mem_cons, List.not_mem_nil, or_false] at hf
      rcases hf with rfl | rfl
      · exact ⟨bodyM, rfl, by decide⟩
      · exact ⟨cxBody2, rfl, by decide⟩)).1,
    rfl, rfl⟩

/-- C2 counterexample: with one reaction registered under `A`, one under `B`
and one under `msg`, a chunk holding a complete `A`-frame followed by a
complete `B`-frame invokes only reaction (`B`,0) and reaction (`msg`,0) —
the reaction registered under the first frame's operation `A` is never
invoked, refuting dispatch-once-per-frame. -/
theorem habibot_C2_counterexample :
    firedReactions (processData cxParse cxCbs botSt0 (cxFrameA ++ cxFrameB))
      = [(sB, 0), (sMsg, 0)] ∧
    ((sA, 0) : Str × Nat) ∉ [((sB, 0) : Str × Nat), (sMsg, 0)] :=
  ⟨rfl, by decide⟩

/-- C4, corrected: with `ME` resolving to a record whose single mod has
`noid = 42` and whose object name is `Randy`, a field valued exactly
`$ME.mods.noid` becomes the number 42 (not a string), but a field valued
`hello $ME.name!` becomes `"hello "` — the `!` belongs to the final dotted
path segment (`name!`), which resolves to `undefined` and joins as the empty
string; without the `!` the result is `"hello Randy"`. -/
theorem habibot_C4_amended :
    substituteState namesRandy historyRandy [(sNoid, .str pathNoid)]
      = .ok [(sNoid, .num 42)] ∧
    JsVal.num 42 ≠ JsVal.str s42 ∧
    substituteState namesRandy historyRandy [(sText, .str pathHelloBang)]
      = .ok [(sText, .str outHello)] ∧
    substituteState namesRandy historyRandy [(sText, .str pathHello)]
      = .ok [(sText, .str outHelloRandy)] :=
  ⟨rfl, fun h => JsVal.noConfusion h, rfl, rfl⟩

/-- C4 counterexample: substituting the field `hello $ME.name!` under the
claim's own setup yields `"hello "`, not `"hello Randy!"`. -/
theorem habibot_C4_counterexample :
    substituteState namesRandy historyRandy [(sText, .str pathHelloBang)]
      = .ok [(sText, .str outHello)] ∧
    outHello ≠ outHelloRandyBang :=
  ⟨rfl, by decide⟩

/-- C6, code bug: with the avatar ghosted and the `GHOST` alias never
available, the retry loop never terminates — `tryEnsureCorporated` re-enters
through `ensureCorporated(curTry + 1)` (src/habibot.js:652), but
`ensureCorporated()` ignores its argument and restarts
`tryEnsureCorporated(0)` (src/habibot.js:154-156), so the counter never
reaches 5 and no rejection ever happens, for any number of observed polls.
The intended loop (counter kept, as the source's own comment and rejection
message describe) rejects after exactly 5 polls: still unresolved after 5,
rejected within 6. -/
theorem habibot_C6_loops_forever :
    (∀ fuel : Nat, tryEnsureCorporated true false fuel 0 = none) ∧
    tryEnsureCorporatedIntended true false 6 0 = some (.rejected sRejectMsg) ∧
    tryEnsureCorporatedIntended true false 5 0 = none := by
  refine ⟨?_, rfl, rfl⟩
  intro fuel
  induction fuel with
  | zero => rfl
  | succ n ih => simpa [tryEnsureCorporated] using ih

/-- C7, corrected: a queue unit checks `this.connected` exactly once, when it
becomes active (src/habibot.js:364-367) — if disconnected at that moment it
rejects with the not-connected condition and writes nothing, but if connected
then, the write after the `delayMillis` wait proceeds regardless of the
connection state when the timeout fires. -/
theorem habibot_C7_amended :
    (∀ (names : List (Str × Str)) (history : List (Str × JsVal)) (connAtFire : Bool) (m : Msg),
        sendWithDelayUnit names history false connAtFire m = .error SendErr.notConnected) ∧
    (∀ (names : List (Str × Str)) (history : List (Str × JsVal)) (connAtFire : Bool) (m : Msg),
        sendWithDelayUnit names history true connAtFire m
          = sendWithDelayUnit names history true true m) :=
  ⟨fun _ _ _ _ => rfl, fun _ _ _ _ => rfl⟩

/-- C7 counterexample: a unit that started connected still performs its
socket write when the connection has dropped during the `delayMillis` wait —
it completes with the written bytes instead of failing with the
not-connected condition. -/
theorem habibot_C7_counterexample :
    sendWithDelayUnit [] [] true false cmdHi = .ok (cmdHi, serHi) ∧
    (Except.ok (cmdHi, serHi) : Except SendErr (Msg × Str)) ≠ .error SendErr.notConnected :=
  ⟨rfl, fun h => Except.noConfusion h⟩

/-- C8, code bug: `connect()` with unset host or port throws a `TypeError`
instead of logging and returning — the guard's log call reads
`this.host. this.port` (src/habibot.js:78), a property chain through
`undefined`. -/
theorem habibot_C8_throws :
    connect ⟨none, some 1337, false⟩ = .error JsErr.typeError ∧
    connect ⟨some sHostEx, none, false⟩ = .error JsErr.typeError :=
  ⟨rfl, rfl⟩

/-- C9, code bug: on an id absent from the noids table `getNoid` returns
null (no throw), but `getMod` evaluates `this.getNoid(noid).mods[0]`
(src/habibot.js:256) and throws a `TypeError` on the null receiver, contrary
to the claim and to getMod's own doc comment (`null otherwise`). -/
theorem habibot_C9_mod_throws (noids : List (Str × JsVal)) (n : Int)
    (h : lookupA noids (intToStr n) = none) :
    getNoid noids n = none ∧ getMod noids n = .error JsErr.typeError := by
  refine ⟨h, ?_⟩
  simp [getMod, getNoid, h]

/-- Witness for habibot_C9_mod_throws at the empty table and id 7. -/
theorem habibot_C9_witness :
    lookupA ([] : List (Str × JsVal)) (intToStr 7) = none ∧
    (getNoid [] 7 = none ∧ getMod [] 7 = .error JsErr.typeError) :=
  ⟨rfl, habibot_C9_mod_throws [] 7 rfl⟩

/-- C10, confirmed: the queue unit mutates the caller's command object in
place (modelled by returning the mutated object): `to` is overwritten with
the alias-resolved ref and the `$`-field with its substituted value, nothing
is restored, and re-sending the very same (now mutated) object serializes the
already-resolved values — the second write equals the first, and the object's
fields hold the ref `user-randy-100` and text `hi Randy` rather than the
original alias `ME` and path `hi $ME.name`. -/
theorem habibot_C10_in_place :
    sendWithDelayUnit namesRandy historyRandy true true cmdSpeak
      = .ok (cmdSpeakResolved, serSpeak) ∧
    sendWithDelayUnit namesRandy historyRandy true true cmdSpeakResolved
      = .ok (cmdSpeakResolved, serSpeak) ∧
    lookupA cmdSpeakResolved sTo = some (.str refRandy) ∧
    some refRandy ≠ some sME ∧
    lookupA cmdSpeakResolved sText = some (.str outHiRandy) ∧
    some outHiRandy ≠ some pathHiName :=
  ⟨rfl, rfl, rfl, by decide, rfl, by decide⟩

/-- C3, corrected: for a ref `a-b-c` whose segments contain no dash and no
dot, `addNames` registers exactly the segment aliases — `a`, `b` and `c` map
to the full ref, while the dash-composites `a-b`, `b-c` and even the full ref
`a-b-c` itself get NO entry (so `substituteName` returns them unchanged; for
the full ref that unchanged value happens to be the canonical ref).  After
`clearNames` for the same ref the table is empty, so none of the six aliases
resolves to anything. -/
theorem habibot_C3_amended (a b c : Str)
    (hda : '-' ∉ a) (hdb : '-' ∉ b) (hdc : '-' ∉ c)
    (hpa : '.' ∉ a) (hpb : '.' ∉ b) (hpc : '.' ∉ c) :
    lookupA (addNames [] (a ++ '-' :: (b ++ '-' :: c))) a
      = some (a ++ '-' :: (b ++ '-' :: c)) ∧
    lookupA (addNames [] (a ++ '-' :: (b ++ '-' :: c))) b
      = some (a ++ '-' :: (b ++ '-' :: c)) ∧
    lookupA (addNames [] (a ++ '-' :: (b ++ '-' :: c))) c
      = some (a ++ '-' :: (b ++ '-' :: c)) ∧
    lookupA (addNames [] (a ++ '-' :: (b ++ '-' :: c))) (a ++ '-' :: b) = none ∧
    lookupA (addNames [] (a ++ '-' :: (b ++ '-' :: c))) (b ++ '-' :: c) = none ∧
    lookupA (addNames [] (a ++ '-' :: (b ++ '-' :: c))) (a ++ '-' :: (b ++ '-' :: c)) = none ∧
    clearNames (addNames [] (a ++ '-' :: (b ++ '-' :: c))) (a ++ '-' :: (b ++ '-' :: c)) = [] := by
  have hsplit : splitOnChar '-' (a ++ '-' :: (b ++ '-' :: c)) = [a, b, c] := by
    rw [splitOnChar_append '-' a _ hda, splitOnChar_append '-' b _ hdb,
      splitOnChar_of_not_mem '-' c hdc]
  have hdotA : splitOnChar '.' a = [a] := splitOnChar_of_not_mem _ _ hpa
  have hdotB : splitOnChar '.' b = [b] := splitOnChar_of_not_mem _ _ hpb
  have hdotC : splitOnChar '.' c = [c] := splitOnChar_of_not_mem _ _ hpc
  have haddN : addNames [] (a ++ '-' :: (b ++ '-' :: c))
      = setA (setA (setA (setA (setA (setA [] a (a ++ '-' :: (b ++ '-' :: c)))
          a (a ++ '-' :: (b ++ '-' :: c))) b (a ++ '-' :: (b ++ '-' :: c)))
          b (a ++ '-' :: (b ++ '-' :: c))) c (a ++ '-' :: (b ++ '-' :: c)))
          c (a ++ '-' :: (b ++ '-' :: c)) := by
    simp [addNames, hsplit, hdotA, hdotB, hdotC]
  have hmr : ('-' : Char) ∈ a ++ '-' :: (b ++ '-' :: c) :=
    List.mem_append_right a (List.mem_cons_self _ _)
  have hmab : ('-' : Char) ∈ a ++ '-' :: b :=
    List.mem_append_right a (List.mem_cons_self _ _)
  have hmbc : ('-' : Char) ∈ b ++ '-' :: c :=
    List.mem_append_right b (List.mem_cons_self _ _)
  have hra : (a ++ '-' :: (b ++ '-' :: c)) ≠ a := fun e => hda (e ▸ hmr)
  have hrb : (a ++ '-' :: (b ++ '-' :: c)) ≠ b := fun e => hdb (e ▸ hmr)
  have hrc : (a ++ '-' :: (b ++ '-' :: c)) ≠ c := fun e => hdc (e ▸ hmr)
  have haba : (a ++ '-' :: b) ≠ a := fun e => hda (e ▸ hmab)
  have habb : (a ++ '-' :: b) ≠ b := fun e => hdb (e ▸ hmab)
  have habc : (a ++ '-' :: b) ≠ c := fun e => hdc (e ▸ hmab)
  have hbca : (b ++ '-' :: c) ≠ a := fun e => hda (e ▸ hmbc)
  have hbcb : (b ++ '-' :: c) ≠ b := fun e => hdb (e ▸ hmbc)
  have hbcc : (b ++ '-' :: c) ≠ c := fun e => hdc (e ▸ hmbc)
  refine ⟨?_, ?_, ?_, ?_, ?_, ?_, ?_⟩
  · rw [haddN]; simp only [lookupA_setA]; split_ifs <;> simp_all [lookupA]
  · rw [haddN]; simp only [lookupA_setA]; split_ifs <;> simp_all [lookupA]
  · rw [haddN]; simp only [lookupA_setA]; split_ifs <;> simp_all [lookupA]
  · rw [haddN]
    simp [lookupA_setA, lookupA, haba, habb, habc, Ne.symm haba, Ne.symm habb, Ne.symm habc]
  · rw [haddN]
    simp [lookupA_setA, lookupA, hbca, hbcb, hbcc, Ne.symm hbca, Ne.symm hbcb, Ne.symm hbcc]
  · rw [haddN]
    simp [lookupA_setA, lookupA, hra, hrb, hrc, Ne.symm hra, Ne.symm hrb, Ne.symm hrc]
  · have hclr : clearNames (addNames [] (a ++ '-' :: (b ++ '-' :: c)))
        (a ++ '-' :: (b ++ '-' :: c))
        = delA (delA (delA (delA (delA (delA
            (addNames [] (a ++ '-' :: (b ++ '-' :: c))) a) a) b) b) c) c := by
      simp [clearNames, hsplit, hdotA, hdotB, hdotC]
    rw [hclr]
    apply List.eq_nil_iff_forall_not_mem.mpr
    intro kv hkv
    obtain ⟨h5, hnc⟩ := (mem_delA _ _ _).mp hkv
    obtain ⟨h4, _⟩ := (mem_delA _ _ _).mp h5
    obtain ⟨h3, hnb⟩ := (mem_delA _ _ _).mp h4
    obtain ⟨h2, _⟩ := (mem_delA _ _ _).mp h3
    obtain ⟨h1, hna⟩ := (mem_delA _ _ _).mp h2
    obtain ⟨h0, _⟩ := (mem_delA _ _ _).mp h1
    rw [haddN] at h0
    rcases mem_setA _ _ _ _ h0 with rfl | h0
    · exact hnc rfl
    rcases mem_setA _ _ _ _ h0 with rfl | h0
    · exact hnc rfl
    rcases mem_setA _ _ _ _ h0 with rfl | h0
    · exact hnb rfl
    rcases mem_setA _ _ _ _ h0 with rfl | h0
    · exact hnb rfl
    rcases mem_setA _ _ _ _ h0 with rfl | h0
    · exact hna rfl
    rcases mem_setA _ _ _ _ h0 with rfl | h0
    · exact hna rfl
    exact List.not_mem_nil kv h0

/-- Witness for habibot_C3_amended at the ref `a-b-c` with one-character
segments. -/
theorem habibot_C3_witness :
    lookupA (addNames [] (sa ++ '-' :: (sb ++ '-' :: sc))) sa
      = some (sa ++ '-' :: (sb ++ '-' :: sc)) ∧
    clearNames (addNames [] (sa ++ '-' :: (sb ++ '-' :: sc))) (sa ++ '-' :: (sb ++ '-' :: sc))
      = [] :=
  ⟨(habibot_C3_amended sa sb sc (by decide) (by decide) (by decide) (by decide) (by decide)
      (by decide)).1,
    (habibot_C3_amended sa sb sc (by decide) (by decide) (by decide) (by decide) (by decide)
      (by decide)).2.2.2.2.2.2⟩

/-- C3 counterexample: after `addNames` for the ref `a-b-c`, the names table
holds no entry for `a-b` — `substituteName` returns `a-b` unchanged, not the
canonical ref `a-b-c` the claim demands. -/
theorem habibot_C3_counterexample :
    lookupA (addNames [] sabc) sab = none ∧
    substituteName (addNames [] sabc) sab = sab ∧
    sab ≠ sabc :=
  ⟨rfl, rfl, by decide⟩

/-- C5, confirmed: three commands enqueued with delays `d1, d2, d3` on a
connected session are written in exactly the enqueue order (concurrency one:
each unit starts only after the previous write completed), and the k-th
write happens no earlier than `t0` plus the sum of the first k delays, for
every choice of non-negative scheduler latencies. -/
theorem habibot_C5_queue_order (names : List (Str × Str)) (history : List (Str × JsVal))
    (c1 c2 c3 m1 m2 m3 : Msg) (b1 b2 b3 : Str) (d1 d2 d3 t0 l1 l2 l3 : Nat)
    (h1 : sendWithDelayUnit names history true true c1 = .ok (m1, b1))
    (h2 : sendWithDelayUnit names history true true c2 = .ok (m2, b2))
    (h3 : sendWithDelayUnit names history true true c3 = .ok (m3, b3)) :
    runQueue names history true t0 [(c1, d1), (c2, d2), (c3, d3)] [l1, l2, l3]
      = [(b1, t0 + d1 + l1), (b2, t0 + d1 + l1 + d2 + l2),
          (b3, t0 + d1 + l1 + d2 + l2 + d3 + l3)] ∧
    t0 + d1 ≤ t0 + d1 + l1 ∧
    t0 + (d1 + d2) ≤ t0 + d1 + l1 + d2 + l2 ∧
    t0 + (d1 + d2 + d3) ≤ t0 + d1 + l1 + d2 + l2 + d3 + l3 := by
  refine ⟨?_, by omega, by omega, by omega⟩
  simp [runQueue, h1, h2, h3]

/-- Witness for habibot_C5_queue_order at three concrete commands with
delays 5, 7, 9 and latencies 1, 2, 3. -/
theorem habibot_C5_witness :
    sendWithDelayUnit [] [] true true cmdA = .ok (cmdA, serA) ∧
    runQueue [] [] true 0 [(cmdA, 5), (cmdB, 7), (cmdC, 9)] [1, 2, 3]
      = [(serA, 0 + 5 + 1), (serB, 0 + 5 + 1 + 7 + 2), (serC, 0 + 5 + 1 + 7 + 2 + 9 + 3)] ∧
    0 + (5 + 7 + 9) ≤ 0 + 5 + 1 + 7 + 2 + 9 + 3 :=
  ⟨rfl,
    (habibot_C5_queue_order [] [] cmdA cmdB cmdC cmdA cmdB cmdC serA serB serC
      5 7 9 0 1 2 3 rfl rfl rfl).1,
    (habibot_C5_queue_order [] [] cmdA cmdB cmdC cmdA cmdB cmdC serA serB serC
      5 7 9 0 1 2 3 rfl rfl rfl).2.2.2⟩

end Habibot
